import Mathlib

/-!
# Verification of the DMV resource-coverage repository

This file shallowly embeds the components of the DMV wait-time
data-collection repository and proves properties of them.

Two kinds of definitions appear:

* The symmetric-distance-matrix function `calc_dmv_d_matrix` is translated
  from `src/dmv_Symmetric_Distance_Matrix_code.ipynb`.
* The retry-driven API fetch, progress persister, aggregator and batch
  driver (the script `scrape_with_retry.py`) are described by the
  specification but the script itself is not among the source files, so
  those components are modelled from the specification text; each such
  definition carries a doc comment saying so.
-/

namespace DMV

/-! ## Data model: ApiResult (spec section 3)

`ApiResult`: `{slug, success : bool, data : opaque payload | null,
attempts_needed : int}`.  The historical-wait payload is opaque, so it is
carried as a type parameter. -/

/-- Modelled from the spec: the `ApiResult` record produced by the Retrying
API Client (`scrape_with_retry.py`, not in `src/`): slug, success flag,
optional opaque payload, and the 1-based number of attempts used. -/
structure ApiResult (α : Type) where
  slug : String
  success : Bool
  data : Option α
  attempts_needed : Nat
  deriving Repr, DecidableEq

/-- Modelled from the spec: the outcome of one HTTP attempt against the
wait-times endpoint.  The failure taxonomy follows spec section 7:
network error, non-success status, unparseable body. -/
inductive AttemptResult (α : Type) where
  | ok (body : α)
  | networkError
  | badStatus (code : Nat)
  | unparseableBody
  deriving Repr, DecidableEq

/-- Whether an attempt outcome counts as a successful response. -/
def AttemptResult.isOk {α : Type} : AttemptResult α → Bool
  | .ok _ => true
  | _ => false

/-- Modelled from the spec: backoff delay after failed attempt `k`
(before attempt `k+1`): `base_delay * 2^(k-1)`, bounded by the cap
`max_delay` (spec sections 4.1 and 8). -/
def backoffDelay (base_delay max_delay k : Nat) : Nat :=
  min (base_delay * 2 ^ (k - 1)) max_delay

/-- Modelled from the spec: the retry loop of the Retrying API Client
(`scrape_with_retry.py`, not in `src/`), starting at 1-based attempt
number `attempt`.  The environment is abstracted as `oracle`, giving the
outcome of each numbered attempt.  Returns the `ApiResult` together with
the list of backoff delays waited, in order.  On a successful response it
returns `success := true` with the parsed body and the attempt number; on
failure it waits `backoffDelay` and retries while `attempt < max_attempts`;
once all attempts fail it returns
`⟨slug, false, none, max_attempts⟩` (spec section 4.1). -/
def fetchAux {α : Type} (oracle : Nat → AttemptResult α) (slug : String)
    (base_delay max_delay max_attempts attempt : Nat) :
    ApiResult α × List Nat :=
  match oracle attempt with
  | .ok body => (⟨slug, true, some body, attempt⟩, [])
  | _ =>
    if h : attempt < max_attempts then
      let rest := fetchAux oracle slug base_delay max_delay max_attempts (attempt + 1)
      (rest.1, backoffDelay base_delay max_delay attempt :: rest.2)
    else
      (⟨slug, false, none, max_attempts⟩, [])
termination_by max_attempts - attempt
decreasing_by omega

/-- Modelled from the spec: `fetch(s)` — run the retry loop from attempt 1
and return the single `ApiResult` (spec section 4.1). -/
def fetch {α : Type} (oracle : Nat → AttemptResult α) (slug : String)
    (base_delay max_delay max_attempts : Nat) : ApiResult α :=
  (fetchAux oracle slug base_delay max_delay max_attempts 1).1

/-- Modelled from the spec: the sequence of backoff delays `fetch(s)`
waits between attempts, in order. -/
def fetchDelays {α : Type} (oracle : Nat → AttemptResult α) (slug : String)
    (base_delay max_delay max_attempts : Nat) : List Nat :=
  (fetchAux oracle slug base_delay max_delay max_attempts 1).2

/-! ### Basic lemmas about the retry loop -/

theorem isOk_iff {α : Type} (r : AttemptResult α) :
    r.isOk = true ↔ ∃ b, r = .ok b := by
  cases r <;> simp [AttemptResult.isOk]

theorem fetchAux_ok_step {α : Type} {oracle : Nat → AttemptResult α} {slug : String}
    {bd md ma a : Nat} {b : α} (hoc : oracle a = .ok b) :
    fetchAux oracle slug bd md ma a = (⟨slug, true, some b, a⟩, []) := by
  rw [fetchAux, hoc]

theorem fetchAux_fail_step {α : Type} {oracle : Nat → AttemptResult α} {slug : String}
    {bd md ma a : Nat} (hoc : (oracle a).isOk = false) :
    fetchAux oracle slug bd md ma a =
      if a < ma then
        ((fetchAux oracle slug bd md ma (a + 1)).1,
          backoffDelay bd md a :: (fetchAux oracle slug bd md ma (a + 1)).2)
      else (⟨slug, false, none, ma⟩, []) := by
  rw [fetchAux]
  cases hoc2 : oracle a with
  | ok b => rw [hoc2] at hoc; simp [AttemptResult.isOk] at hoc
  | networkError =>
    by_cases hlt : a < ma
    · rw [dif_pos hlt, if_pos hlt]
    · rw [dif_neg hlt, if_neg hlt]
  | badStatus code =>
    by_cases hlt : a < ma
    · rw [dif_pos hlt, if_pos hlt]
    · rw [dif_neg hlt, if_neg hlt]
  | unparseableBody =>
    by_cases hlt : a < ma
    · rw [dif_pos hlt, if_pos hlt]
    · rw [dif_neg hlt, if_neg hlt]

/-- The attempt number recorded by the retry loop started at attempt `a`
stays in the closed interval `[a, max_attempts]`. -/
theorem fetchAux_bounds {α : Type} (oracle : Nat → AttemptResult α) (slug : String)
    (bd md ma a : Nat) (h : a ≤ ma) :
    a ≤ (fetchAux oracle slug bd md ma a).1.attempts_needed ∧
      (fetchAux oracle slug bd md ma a).1.attempts_needed ≤ ma := by
  by_cases hok : (oracle a).isOk = true
  · obtain ⟨b, hb⟩ := (isOk_iff (oracle a)).1 hok
    rw [fetchAux_ok_step hb]
    exact ⟨le_refl a, h⟩
  · rw [fetchAux_fail_step (by simpa using hok)]
    by_cases hlt : a < ma
    · rw [if_pos hlt]
      have IH := fetchAux_bounds oracle slug bd md ma (a + 1) (by omega)
      exact ⟨le_trans (Nat.le_succ a) IH.1, IH.2⟩
    · rw [if_neg hlt]
      exact ⟨h, le_refl ma⟩
termination_by ma - a
decreasing_by all_goals omega

/-- Success characterization: the retry loop succeeds iff it stopped before
the last attempt, or the last attempt itself yielded a successful response. -/
theorem fetchAux_success_iff {α : Type} (oracle : Nat → AttemptResult α) (slug : String)
    (bd md ma a : Nat) (h : a ≤ ma) :
    ((fetchAux oracle slug bd md ma a).1.success = true ↔
      ((fetchAux oracle slug bd md ma a).1.attempts_needed < ma ∨
        (oracle ma).isOk = true)) := by
  by_cases hok : (oracle a).isOk = true
  · obtain ⟨b, hb⟩ := (isOk_iff (oracle a)).1 hok
    rw [fetchAux_ok_step hb]
    refine ⟨fun _ => ?_, fun _ => rfl⟩
    rcases eq_or_lt_of_le h with heq | hlt
    · right; rw [← heq]; exact hok
    · left; exact hlt
  · have hok' : (oracle a).isOk = false := by simpa using hok
    rw [fetchAux_fail_step hok']
    by_cases hlt : a < ma
    · rw [if_pos hlt]
      exact fetchAux_success_iff oracle slug bd md ma (a + 1) (by omega)
    · rw [if_neg hlt]
      have hma : a = ma := le_antisymm h (Nat.not_lt.mp hlt)
      subst hma
      constructor
      · intro hcontra
        exact absurd hcontra (by simp)
      · intro hor
        rcases hor with hlt2 | hok2
        · exact absurd hlt2 (by simp)
        · rw [hok2] at hok'
          cases hok'
termination_by ma - a
decreasing_by all_goals omega

/-- The success flag and the presence of a payload agree. -/
theorem fetchAux_success_eq_isSome {α : Type} (oracle : Nat → AttemptResult α)
    (slug : String) (bd md ma a : Nat) :
    (fetchAux oracle slug bd md ma a).1.success =
      (fetchAux oracle slug bd md ma a).1.data.isSome := by
  by_cases hok : (oracle a).isOk = true
  · obtain ⟨b, hb⟩ := (isOk_iff (oracle a)).1 hok
    rw [fetchAux_ok_step hb]
    rfl
  · rw [fetchAux_fail_step (by simpa using hok)]
    by_cases hlt : a < ma
    · rw [if_pos hlt]
      exact fetchAux_success_eq_isSome oracle slug bd md ma (a + 1)
    · rw [if_neg hlt]
      rfl
termination_by ma - a
decreasing_by all_goals omega

/-- The slug recorded in the result is the requested slug. -/
theorem fetchAux_slug {α : Type} (oracle : Nat → AttemptResult α)
    (slug : String) (bd md ma a : Nat) :
    (fetchAux oracle slug bd md ma a).1.slug = slug := by
  by_cases hok : (oracle a).isOk = true
  · obtain ⟨b, hb⟩ := (isOk_iff (oracle a)).1 hok
    rw [fetchAux_ok_step hb]
  · rw [fetchAux_fail_step (by simpa using hok)]
    by_cases hlt : a < ma
    · rw [if_pos hlt]
      exact fetchAux_slug oracle slug bd md ma (a + 1)
    · rw [if_neg hlt]
termination_by ma - a
decreasing_by all_goals omega

/-- If every attempt from `a` to `max_attempts` fails, the retry loop
returns the terminal failure result. -/
theorem fetchAux_all_fail {α : Type} (oracle : Nat → AttemptResult α) (slug : String)
    (bd md ma a : Nat) (h : a ≤ ma)
    (hf : ∀ k, a ≤ k → k ≤ ma → (oracle k).isOk = false) :
    (fetchAux oracle slug bd md ma a).1 = ⟨slug, false, none, ma⟩ := by
  have hok : (oracle a).isOk = false := hf a le_rfl h
  rw [fetchAux_fail_step hok]
  by_cases hlt : a < ma
  · rw [if_pos hlt]
    exact fetchAux_all_fail oracle slug bd md ma (a + 1) (by omega)
      (fun k hk1 hk2 => hf k (by omega) hk2)
  · rw [if_neg hlt]
termination_by ma - a
decreasing_by all_goals omega

/-- While the first `k` attempts starting at `a` all fail, the delay trace
starts with the backoff delays of attempts `a, a+1, …, a+k-1`. -/
theorem fetchAux_delays_front {α : Type} (oracle : Nat → AttemptResult α) (slug : String)
    (bd md ma : Nat) :
    ∀ (k a : Nat), (∀ j, a ≤ j → j < a + k → (oracle j).isOk = false) →
      a + k ≤ ma →
      (fetchAux oracle slug bd md ma a).2 =
        (List.range k).map (fun i => backoffDelay bd md (a + i)) ++
          (fetchAux oracle slug bd md ma (a + k)).2
  | 0, a, _, _ => by simp
  | (k + 1), a, hf, hk => by
    have hok : (oracle a).isOk = false := hf a le_rfl (by omega)
    rw [fetchAux_fail_step hok, if_pos (by omega : a < ma)]
    have IH := fetchAux_delays_front oracle slug bd md ma k (a + 1)
      (fun j hj1 hj2 => hf j (by omega) (by omega)) (by omega)
    show backoffDelay bd md a :: (fetchAux oracle slug bd md ma (a + 1)).2 = _
    rw [IH]
    have h1 : a + (k + 1) = a + 1 + k := by omega
    rw [h1, List.range_succ_eq_map, List.map_cons, List.map_map, Nat.add_zero,
      List.cons_append]
    congr 1
    congr 1
    exact List.map_congr_left (fun i _ => by
      show backoffDelay bd md (a + 1 + i) = backoffDelay bd md (a + (i + 1))
      congr 1
      omega)

end DMV

-- sanity checks on concrete oracles
example :
    DMV.fetch (fun k => if k = 3 then .ok "payload" else .networkError)
      "arleta" 1 60 5 = ⟨"arleta", true, some "payload", 3⟩ := by
  simp [DMV.fetch, DMV.fetchAux]

example :
    DMV.fetch (fun _ => (.networkError : DMV.AttemptResult String))
      "arleta" 1 60 5 = ⟨"arleta", false, none, 5⟩ := by
  simp [DMV.fetch, DMV.fetchAux]

example :
    DMV.fetchDelays (fun _ => (.networkError : DMV.AttemptResult String))
      "arleta" 1 60 5 = [1, 2, 4, 8] := by
  simp [DMV.fetchDelays, DMV.fetchAux, DMV.backoffDelay]

namespace DMV

/-! ## Claims about the Retrying API Client -/

/-- C1: For every slug `s` and every configured `max_attempts`, the retrying
fetch operation `fetch(s)` returns exactly one `ApiResult` whose
`attempts_needed` field lies in the closed interval `[1, max_attempts]`,
and whose `success` field is true if and only if
`attempts_needed < max_attempts` or the last attempt succeeded. -/
theorem claim_C1_fetch_attempts_and_success {α : Type}
    (oracle : Nat → AttemptResult α) (slug : String)
    (base_delay max_delay max_attempts : Nat) (hma : 0 < max_attempts) :
    1 ≤ (fetch oracle slug base_delay max_delay max_attempts).attempts_needed ∧
      (fetch oracle slug base_delay max_delay max_attempts).attempts_needed ≤ max_attempts ∧
      ((fetch oracle slug base_delay max_delay max_attempts).success = true ↔
        ((fetch oracle slug base_delay max_delay max_attempts).attempts_needed < max_attempts ∨
          (oracle max_attempts).isOk = true)) := by
  have hb := fetchAux_bounds oracle slug base_delay max_delay max_attempts 1 hma
  exact ⟨hb.1, hb.2, fetchAux_success_iff oracle slug base_delay max_delay max_attempts 1 hma⟩

/-- Witness for C1 at a concrete input: an oracle that fails once and
succeeds on the second attempt, with `max_attempts = 5`. -/
theorem claim_C1_witness :
    0 < 5 ∧
      (1 ≤ (fetch (fun k => if k = 2 then .ok 0 else .networkError) "arleta" 1 60 5).attempts_needed ∧
        (fetch (fun k => if k = 2 then .ok 0 else .networkError) "arleta" 1 60 5).attempts_needed ≤ 5 ∧
        ((fetch (fun k => if k = 2 then .ok 0 else .networkError) "arleta" 1 60 5).success = true ↔
          ((fetch (fun k => if k = 2 then .ok 0 else .networkError) "arleta" 1 60 5).attempts_needed < 5 ∨
            (AttemptResult.isOk (if 5 = 2 then .ok 0 else .networkError) = true)))) :=
  ⟨by decide,
    claim_C1_fetch_attempts_and_success (fun k => if k = 2 then .ok 0 else .networkError)
      "arleta" 1 60 5 (by decide)⟩

/-- C2: For every attempt number `k` with `1 ≤ k < max_attempts`, the backoff
delay waited after failed attempt `k` (i.e. before attempt `k+1`) equals
`min(base_delay * 2^(k-1), max_delay)`; in particular, for
`base_delay = 1` and `max_attempts = 5`, the sequence of delays between
attempts is `[1, 2, 4, 8]` seconds. -/
theorem claim_C2_backoff_delays :
    (∀ (α : Type) (oracle : Nat → AttemptResult α) (slug : String)
        (base_delay max_delay max_attempts k : Nat),
        1 ≤ k → k < max_attempts →
        (∀ j, 1 ≤ j → j ≤ k → (oracle j).isOk = false) →
        (fetchDelays oracle slug base_delay max_delay max_attempts)[k - 1]? =
          some (min (base_delay * 2 ^ (k - 1)) max_delay)) ∧
    (∀ (α : Type) (oracle : Nat → AttemptResult α) (slug : String) (max_delay : Nat),
        8 ≤ max_delay →
        (∀ j, (oracle j).isOk = false) →
        fetchDelays oracle slug 1 max_delay 5 = [1, 2, 4, 8]) := by
  constructor
  · intro α oracle slug bd md ma k hk1 hkma hf
    unfold fetchDelays
    rw [fetchAux_delays_front oracle slug bd md ma k 1
      (fun j hj1 hj2 => hf j hj1 (by omega)) (by omega)]
    rw [List.getElem?_append_left (by simpa using by omega : k - 1 < ((List.range k).map
      (fun i => backoffDelay bd md (1 + i))).length)]
    rw [List.getElem?_map, List.getElem?_range (by omega)]
    show some (backoffDelay bd md (1 + (k - 1))) = _
    have : 1 + (k - 1) = k := by omega
    rw [this]
    rfl
  · intro α oracle slug md hmd hf
    unfold fetchDelays
    rw [fetchAux_delays_front oracle slug 1 md 5 4 1
      (fun j hj1 hj2 => hf j) (by omega)]
    rw [fetchAux_fail_step (hf 5), if_neg (by omega)]
    have e1 : backoffDelay 1 md 1 = 1 := by
      unfold backoffDelay; simp; omega
    have e2 : backoffDelay 1 md 2 = 2 := by
      unfold backoffDelay; simp; omega
    have e3 : backoffDelay 1 md 3 = 4 := by
      unfold backoffDelay
      show min (1 * 2 ^ 2) md = 4
      simp; omega
    have e4 : backoffDelay 1 md 4 = 8 := by
      unfold backoffDelay
      show min (1 * 2 ^ 3) md = 8
      simp; omega
    simp [List.range_succ, e1, e2, e3, e4]

/-- Witness for C2 at a concrete input: an always-failing oracle with
`base_delay = 1`, `max_delay = 60`, `max_attempts = 5`. -/
theorem claim_C2_witness :
    (1 ≤ 3 ∧ 3 < 5 ∧ (∀ j, 1 ≤ j → j ≤ 3 →
        (AttemptResult.isOk (α := Nat) .networkError) = false)) ∧
      (fetchDelays (fun _ => (.networkError : AttemptResult Nat)) "arleta" 1 60 5)[3 - 1]? =
        some (min (1 * 2 ^ (3 - 1)) 60) ∧
      (8 ≤ 60 ∧ fetchDelays (fun _ => (.networkError : AttemptResult Nat)) "arleta" 1 60 5 =
        [1, 2, 4, 8]) :=
  ⟨⟨by decide, by decide, fun _ _ _ => rfl⟩,
    claim_C2_backoff_delays.1 Nat (fun _ => .networkError) "arleta" 1 60 5 3
      (by decide) (by decide) (fun _ _ _ => rfl),
    by decide,
    claim_C2_backoff_delays.2 Nat (fun _ => .networkError) "arleta" 60
      (by decide) (fun _ => rfl)⟩

/-- C3: For every slug, if all `max_attempts` attempts fail (network error,
non-success status, or unparseable body on each attempt — exactly the
non-`ok` constructors of `AttemptResult`), `fetch` returns the value
`ApiResult{success := false, data := none, attempts_needed := max_attempts}`.
The fetch operation is a total Lean function into `ApiResult`, so the caller
always receives a well-formed `ApiResult`: no exception escapes the
boundary. -/
theorem claim_C3_all_attempts_fail {α : Type}
    (oracle : Nat → AttemptResult α) (slug : String)
    (base_delay max_delay max_attempts : Nat) (hma : 0 < max_attempts)
    (hf : ∀ k, 1 ≤ k → k ≤ max_attempts → (oracle k).isOk = false) :
    fetch oracle slug base_delay max_delay max_attempts =
      ⟨slug, false, none, max_attempts⟩ :=
  fetchAux_all_fail oracle slug base_delay max_delay max_attempts 1 hma hf

/-- Witness for C3 at a concrete input: an oracle failing every attempt. -/
theorem claim_C3_witness :
    (0 < 5 ∧ (∀ k, 1 ≤ k → k ≤ 5 →
        (AttemptResult.isOk (α := Nat) .unparseableBody) = false)) ∧
      fetch (fun _ => (.unparseableBody : AttemptResult Nat)) "arleta" 1 60 5 =
        ⟨"arleta", false, none, 5⟩ :=
  ⟨⟨by decide, fun _ _ _ => rfl⟩,
    claim_C3_all_attempts_fail (fun _ => .unparseableBody) "arleta" 1 60 5
      (by decide) (fun _ _ _ => rfl)⟩

end DMV

namespace DMV

/-! ## Progress Persister (spec section 4.2)

The persister checkpoints the mapping slug → ApiResult to a well-known
path: serialize (slugs sorted), write the bytes to a temporary path, then
rename the temporary file over the well-known path. -/

/-- Modelled from the spec: serialization of one completed entry (slug and
its `ApiResult`) as one line of the checkpoint file. -/
def serializeEntry (e : String × ApiResult String) : String :=
  e.1 ++ "|" ++ (if e.2.success then "true" else "false") ++ "|" ++
    (match e.2.data with
     | some d => d
     | none => "null") ++ "|" ++ toString e.2.attempts_needed ++ "\n"

/-- Lexicographic order on character lists, comparing code points. -/
def lexLe : List Char → List Char → Bool
  | [], _ => true
  | _ :: _, [] => false
  | c :: cs, d :: ds =>
    if c.toNat < d.toNat then true
    else if d.toNat < c.toNat then false
    else lexLe cs ds

/-- Slug order used to sort checkpoint entries. -/
def slugLe (s t : String) : Bool := lexLe s.data t.data

/-- Modelled from the spec: deterministic serialization of the in-memory
mapping slug → ApiResult — entries sorted by slug, then serialized in
order (spec section 8: deterministic serialization, slugs sorted). -/
def serializeCheckpoint (m : List (String × ApiResult String)) : String :=
  String.join ((m.insertionSort (fun p q => slugLe p.1 q.1 = true)).map serializeEntry)

/-- Modelled from the spec: the contents of the two paths the Progress
Persister touches — the well-known checkpoint path and the temporary
path.  `none` means the path does not exist; contents are byte lists. -/
structure CheckpointFS where
  mainPath : Option (List Char)
  tmpPath : Option (List Char)
  deriving Repr, DecidableEq

/-- Modelled from the spec: the elementary filesystem actions of one
checkpoint write — create/truncate the temporary file, append a byte to
it, and atomically rename it over the well-known path. -/
inductive FsAction where
  | createTmp
  | appendTmp (c : Char)
  | renameTmpOverMain
  deriving Repr, DecidableEq

def applyAction : CheckpointFS → FsAction → CheckpointFS
  | fs, .createTmp => { fs with tmpPath := some [] }
  | fs, .appendTmp c => { fs with tmpPath := some ((fs.tmpPath.getD []) ++ [c]) }
  | fs, .renameTmpOverMain => { mainPath := fs.tmpPath, tmpPath := none }

def runActions (fs : CheckpointFS) (acts : List FsAction) : CheckpointFS :=
  acts.foldl applyAction fs

/-- Modelled from the spec: one checkpoint write of mapping `m` — write
the serialized snapshot byte by byte to the temporary path, then rename it
over the well-known path. -/
def checkpointActions (m : List (String × ApiResult String)) : List FsAction :=
  .createTmp :: ((serializeCheckpoint m).data.map .appendTmp ++ [.renameTmpOverMain])

/-! ### Persister lemmas -/

/-- Actions other than the rename never change the well-known path. -/
theorem runActions_main_of_no_rename (acts : List FsAction) :
    ∀ (fs : CheckpointFS), FsAction.renameTmpOverMain ∉ acts →
      (runActions fs acts).mainPath = fs.mainPath := by
  induction acts with
  | nil => intro fs _; rfl
  | cons a acts ih =>
    intro fs hmem
    have ha : a ≠ FsAction.renameTmpOverMain := fun h => hmem (h ▸ List.mem_cons_self a acts)
    have hrest : FsAction.renameTmpOverMain ∉ acts := fun h => hmem (List.mem_cons_of_mem a h)
    show (runActions (applyAction fs a) acts).mainPath = fs.mainPath
    rw [ih (applyAction fs a) hrest]
    cases a with
    | createTmp => rfl
    | appendTmp c => rfl
    | renameTmpOverMain => exact absurd rfl ha

/-- Appending a byte list to the temporary file, byte by byte. -/
theorem runActions_append_chunk (cs : List Char) :
    ∀ (fs : CheckpointFS) (t : List Char), fs.tmpPath = some t →
      runActions fs (cs.map .appendTmp) = ⟨fs.mainPath, some (t ++ cs)⟩ := by
  induction cs with
  | nil =>
    intro fs t ht
    cases fs
    simp_all [runActions]
  | cons c cs ih =>
    intro fs t ht
    show runActions (applyAction fs (.appendTmp c)) (cs.map .appendTmp) = _
    rw [ih (applyAction fs (.appendTmp c)) (t ++ [c]) (by simp [applyAction, ht])]
    simp [applyAction]

/-- A full, uninterrupted checkpoint run replaces the well-known path with
the serialized snapshot. -/
theorem runActions_checkpoint (m : List (String × ApiResult String)) (fs : CheckpointFS) :
    runActions fs (checkpointActions m) =
      ⟨some (serializeCheckpoint m).data, none⟩ := by
  show runActions (applyAction fs .createTmp)
    ((serializeCheckpoint m).data.map .appendTmp ++ [.renameTmpOverMain]) = _
  rw [runActions, List.foldl_append]
  rw [show ((serializeCheckpoint m).data.map FsAction.appendTmp).foldl applyAction
        (applyAction fs .createTmp) =
      runActions (applyAction fs .createTmp) ((serializeCheckpoint m).data.map .appendTmp) from rfl]
  rw [runActions_append_chunk (serializeCheckpoint m).data (applyAction fs .createTmp) []
    (by simp [applyAction])]
  simp [applyAction, runActions]

/-- The rename is the last action of a checkpoint write: every proper
prefix contains no rename. -/
theorem rename_not_mem_take (m : List (String × ApiResult String)) (k : Nat)
    (hk : k < (checkpointActions m).length) :
    FsAction.renameTmpOverMain ∉ (checkpointActions m).take k := by
  intro hmem
  have hsub : FsAction.renameTmpOverMain ∈
      (FsAction.createTmp :: (serializeCheckpoint m).data.map FsAction.appendTmp) := by
    have hlen : k ≤ (FsAction.createTmp ::
        (serializeCheckpoint m).data.map FsAction.appendTmp).length := by
      have : (checkpointActions m).length =
          (serializeCheckpoint m).data.length + 2 := by
        simp [checkpointActions]
      simp only [List.length_cons, List.length_map]
      omega
    have he : (checkpointActions m).take k =
        ((FsAction.createTmp :: (serializeCheckpoint m).data.map FsAction.appendTmp) ++
          [FsAction.renameTmpOverMain]).take k := by
      simp [checkpointActions]
    rw [he, List.take_append_of_le_length hlen] at hmem
    exact List.take_subset k _ hmem
  rcases List.mem_cons.1 hsub with h | h
  · cases h
  · rcases List.mem_map.1 h with ⟨c, _, hc⟩
    cases hc

end DMV

namespace DMV

/-- `lexLe` is total. -/
theorem lexLe_total : ∀ a b : List Char, lexLe a b = true ∨ lexLe b a = true
  | [], b => Or.inl rfl
  | a :: as, [] => Or.inr rfl
  | a :: as, b :: bs => by
    by_cases h1 : a.toNat < b.toNat
    · left; simp [lexLe, h1]
    · by_cases h2 : b.toNat < a.toNat
      · right; simp [lexLe, h2]
      · rcases lexLe_total as bs with h | h
        · left; simp [lexLe, h1, h2, h]
        · right; simp [lexLe, h1, h2, h]

/-- `lexLe` is transitive. -/
theorem lexLe_trans : ∀ a b c : List Char,
    lexLe a b = true → lexLe b c = true → lexLe a c = true
  | [], _, _, _, _ => rfl
  | a :: as, [], c, hab, _ => by simp [lexLe] at hab
  | a :: as, b :: bs, [], _, hbc => by simp [lexLe] at hbc
  | a :: as, b :: bs, c :: cs, hab, hbc => by
    simp only [lexLe] at hab hbc ⊢
    have hbc' : b.toNat ≤ c.toNat := by
      by_cases h2 : b.toNat < c.toNat
      · omega
      · by_cases h4 : c.toNat < b.toNat
        · rw [if_neg h2, if_pos h4] at hbc
          cases hbc
        · omega
    by_cases h1 : a.toNat < b.toNat
    · rw [if_pos (by omega : a.toNat < c.toNat)]
    · by_cases h3 : b.toNat < a.toNat
      · rw [if_neg h1, if_pos h3] at hab
        cases hab
      · by_cases h2 : b.toNat < c.toNat
        · rw [if_pos (by omega : a.toNat < c.toNat)]
        · rw [if_neg h1, if_neg h3] at hab
          rw [if_neg h2, if_neg (by omega : ¬c.toNat < b.toNat)] at hbc
          rw [if_neg (by omega : ¬a.toNat < c.toNat),
            if_neg (by omega : ¬c.toNat < a.toNat)]
          exact lexLe_trans as bs cs hab hbc

/-- `lexLe` is antisymmetric. -/
theorem lexLe_antisymm : ∀ a b : List Char,
    lexLe a b = true → lexLe b a = true → a = b
  | [], [], _, _ => rfl
  | [], b :: bs, _, hba => by simp [lexLe] at hba
  | a :: as, [], hab, _ => by simp [lexLe] at hab
  | a :: as, b :: bs, hab, hba => by
    simp only [lexLe] at hab hba
    by_cases h1 : a.toNat < b.toNat
    · rw [if_neg (by omega : ¬b.toNat < a.toNat), if_pos h1] at hba
      cases hba
    · by_cases h2 : b.toNat < a.toNat
      · rw [if_neg h1, if_pos h2] at hab
        cases hab
      · rw [if_neg h1, if_neg h2] at hab
        rw [if_neg h2, if_neg h1] at hba
        have hchar : a = b :=
          Char.ext (UInt32.toNat.inj (show a.toNat = b.toNat by omega))
        rw [hchar, lexLe_antisymm as bs hab hba]

/-- `slugLe` is antisymmetric. -/
theorem slugLe_antisymm (s t : String) (h1 : slugLe s t = true)
    (h2 : slugLe t s = true) : s = t := by
  cases s with
  | mk sd =>
    cases t with
    | mk td =>
      have : sd = td := lexLe_antisymm sd td h1 h2
      rw [this]

/-- Sorting by slug of a mapping with distinct slugs is strictly sorted:
each entry's slug is `slugLe`-below and distinct from every later one. -/
theorem sorted_strict_insertionSort (m : List (String × ApiResult String))
    (hnd : (m.map Prod.fst).Nodup) :
    List.Sorted (fun p q : String × ApiResult String =>
        slugLe p.1 q.1 = true ∧ p.1 ≠ q.1)
      (m.insertionSort (fun p q => slugLe p.1 q.1 = true)) := by
  haveI : IsTotal (String × ApiResult String) (fun p q => slugLe p.1 q.1 = true) :=
    ⟨fun a b => lexLe_total a.1.data b.1.data⟩
  haveI : IsTrans (String × ApiResult String) (fun p q => slugLe p.1 q.1 = true) :=
    ⟨fun a b c hab hbc => lexLe_trans a.1.data b.1.data c.1.data hab hbc⟩
  have hs : List.Sorted (fun p q : String × ApiResult String => slugLe p.1 q.1 = true)
      (m.insertionSort (fun p q => slugLe p.1 q.1 = true)) :=
    List.sorted_insertionSort _ m
  have hnd2 : ((m.insertionSort (fun p q => slugLe p.1 q.1 = true)).map Prod.fst).Nodup :=
    (((List.perm_insertionSort
        (fun p q : String × ApiResult String => slugLe p.1 q.1 = true) m).map
      Prod.fst).nodup_iff).mpr hnd
  have hpw : List.Pairwise (fun p q : String × ApiResult String => p.1 ≠ q.1)
      (m.insertionSort (fun p q => slugLe p.1 q.1 = true)) :=
    (List.pairwise_map).1 hnd2
  exact hs.and hpw

/-- Two association lists that represent the same finite mapping (one is a
permutation of the other, slugs distinct) sort to the same list. -/
theorem insertionSort_eq_of_perm (m₁ m₂ : List (String × ApiResult String))
    (hp : m₁.Perm m₂) (hnd : (m₁.map Prod.fst).Nodup) :
    m₁.insertionSort (fun p q => slugLe p.1 q.1 = true) =
      m₂.insertionSort (fun p q => slugLe p.1 q.1 = true) := by
  haveI : IsAntisymm (String × ApiResult String)
      (fun p q => slugLe p.1 q.1 = true ∧ p.1 ≠ q.1) :=
    ⟨fun a b h1 h2 => absurd (slugLe_antisymm a.1 b.1 h1.1 h2.1) h1.2⟩
  have hnd2 : (m₂.map Prod.fst).Nodup := ((hp.map Prod.fst).nodup_iff).mp hnd
  exact List.eq_of_perm_of_sorted
    (((List.perm_insertionSort _ m₁).trans hp).trans
      (List.perm_insertionSort _ m₂).symm)
    (sorted_strict_insertionSort m₁ hnd) (sorted_strict_insertionSort m₂ hnd2)

/-! ## Claims about the Progress Persister -/

/-- C4: The checkpoint write is atomic from a reader's perspective: it
writes the serialized snapshot to a temporary path and then renames it over
the well-known output path.  For every run terminated mid-checkpoint-write
— after any proper prefix of the write's filesystem actions, i.e. before
the rename — the content of the well-known path is unchanged, so the last
fully-written checkpoint remains valid; and an uninterrupted run leaves the
full serialized snapshot at the well-known path. -/
theorem claim_C4_checkpoint_atomic :
    (∀ (m : List (String × ApiResult String)) (fs : CheckpointFS) (k : Nat),
        k < (checkpointActions m).length →
        (runActions fs ((checkpointActions m).take k)).mainPath = fs.mainPath) ∧
    (∀ (m : List (String × ApiResult String)) (fs : CheckpointFS),
        (runActions fs (checkpointActions m)).mainPath =
          some (serializeCheckpoint m).data) := by
  constructor
  · intro m fs k hk
    exact runActions_main_of_no_rename _ fs (rename_not_mem_take m k hk)
  · intro m fs
    rw [runActions_checkpoint]

/-- Concrete mapping used by the persister witnesses. -/
def witnessMap : List (String × ApiResult String) :=
  [("pasadena", ⟨"pasadena", false, none, 5⟩), ("arleta", ⟨"arleta", true, some "d", 3⟩)]

/-- The same mapping with its entries in the other completion order. -/
def witnessMapPerm : List (String × ApiResult String) :=
  [("arleta", ⟨"arleta", true, some "d", 3⟩), ("pasadena", ⟨"pasadena", false, none, 5⟩)]

/-- A filesystem whose well-known path holds a previous checkpoint. -/
def witnessFS : CheckpointFS := ⟨some ['o', 'l', 'd'], none⟩

/-- Witness for C4 at a concrete input: interrupting a checkpoint write of
a two-entry mapping after two actions leaves the previous checkpoint
intact. -/
theorem claim_C4_witness :
    2 < (checkpointActions witnessMap).length ∧
      (runActions witnessFS ((checkpointActions witnessMap).take 2)).mainPath =
        witnessFS.mainPath :=
  ⟨by decide, claim_C4_checkpoint_atomic.1 witnessMap witnessFS 2 (by decide)⟩

/-- C5: Checkpoint serialization is deterministic and idempotent: the
well-known path content produced by checkpointing a mapping does not depend
on the prior filesystem state — so writing the same mapping twice produces
byte-identical files — and two association lists holding the same mapping
(permutations of each other, slugs distinct) serialize to identical bytes,
because entries are sorted by slug. -/
theorem claim_C5_checkpoint_deterministic :
    (∀ (m : List (String × ApiResult String)) (fs fs2 : CheckpointFS),
        (runActions fs (checkpointActions m)).mainPath =
          (runActions fs2 (checkpointActions m)).mainPath) ∧
    (∀ (m₁ m₂ : List (String × ApiResult String)), m₁.Perm m₂ →
        (m₁.map Prod.fst).Nodup →
        serializeCheckpoint m₁ = serializeCheckpoint m₂) := by
  constructor
  · intro m fs fs2
    rw [runActions_checkpoint, runActions_checkpoint]
  · intro m₁ m₂ hp hnd
    unfold serializeCheckpoint
    rw [insertionSort_eq_of_perm m₁ m₂ hp hnd]

/-- Witness for C5 at a concrete input: the two-entry mapping serialized
from either completion order gives byte-identical output. -/
theorem claim_C5_witness :
    (witnessMap.Perm witnessMapPerm ∧ (witnessMap.map Prod.fst).Nodup) ∧
      serializeCheckpoint witnessMap = serializeCheckpoint witnessMapPerm :=
  ⟨⟨by decide, by decide⟩,
    claim_C5_checkpoint_deterministic.2 witnessMap witnessMapPerm (by decide) (by decide)⟩

end DMV

namespace DMV

/-! ## Aggregator and batch driver (spec sections 3, 4.3, 6, 7) -/

/-- Modelled from the spec: an office record scraped from the source HTML
table, with optional coordinates filled by the Geocoder Adapter
(spec section 3). -/
structure OfficeRecord where
  name : String
  slug : String
  address : String
  current_appt_wait : String
  current_non_appt_wait : String
  url : String
  latitude : Option ℚ
  longitude : Option ℚ
  geocoded : Bool
  deriving Repr, DecidableEq

/-- Modelled from the spec: the final per-office structure joining table
data and API data; slug is the join key (spec section 3). -/
structure CombinedRecord where
  table_data : OfficeRecord
  api_data : ApiResult String
  deriving Repr, DecidableEq

/-- Modelled from the spec: the Aggregator joins each office record with
the `ApiResult` for its slug — one result per distinct slug, given here as
the mapping `results` (spec sections 3 and 4.3). -/
def aggregate (offices : List OfficeRecord)
    (results : String → ApiResult String) : List CombinedRecord :=
  offices.map (fun o => ⟨o, results o.slug⟩)

/-- Modelled from the spec: outcome of parsing the source HTML table
(spec section 7: structure changed or zero offices found is fatal). -/
inductive ParseOutcome where
  | ok (offices : List OfficeRecord)
  | parseError
  deriving Repr, DecidableEq

/-- Modelled from the spec: outcome of the filesystem writes performed
while checkpointing (spec section 7). -/
inductive FsOutcome where
  | ok
  | writeError
  deriving Repr, DecidableEq

/-- Modelled from the spec: the batch driver — a parse failure or an empty
office list halts the run with exit code 1, a checkpoint write failure
halts with exit code 1, and otherwise the run completes with the
aggregated records and exit code 0 regardless of per-slug outcomes
(spec sections 6 and 7). -/
def runBatch (parsed : ParseOutcome) (results : String → ApiResult String)
    (fsOutcome : FsOutcome) : List CombinedRecord × Nat :=
  match parsed with
  | .parseError => ([], 1)
  | .ok offices =>
    if offices.isEmpty then ([], 1)
    else
      match fsOutcome with
      | .writeError => ([], 1)
      | .ok => (aggregate offices results, 0)

/-- C6: For every input office list and every mapping assigning one
`ApiResult` per distinct slug, the Aggregator produces exactly one
`CombinedRecord` per office slug — the output slugs are exactly the input
slugs, so each appears exactly once when the input slugs are distinct —
and for 176 offices of which exactly 22 have a successful result (success
agreeing with payload presence, as `fetch` guarantees), the output has 176
records, 22 with non-null `api_data.data` and 154 with `success = false`. -/
theorem claim_C6_join_completeness :
    (∀ (offices : List OfficeRecord) (results : String → ApiResult String),
        (aggregate offices results).length = offices.length ∧
        (aggregate offices results).map (fun c => c.table_data.slug) =
          offices.map (fun o => o.slug)) ∧
    (∀ (offices : List OfficeRecord) (results : String → ApiResult String),
        (offices.map (fun o => o.slug)).Nodup →
        ((aggregate offices results).map (fun c => c.table_data.slug)).Nodup) ∧
    (∀ (offices : List OfficeRecord) (results : String → ApiResult String),
        offices.length = 176 →
        offices.countP (fun o => (results o.slug).success) = 22 →
        (∀ s, (results s).success = (results s).data.isSome) →
        (aggregate offices results).length = 176 ∧
        (aggregate offices results).countP (fun c => c.api_data.data.isSome) = 22 ∧
        (aggregate offices results).countP (fun c => !c.api_data.success) = 154) := by
  refine ⟨fun offices results => ⟨?_, ?_⟩, fun offices results hnd => ?_,
    fun offices results hlen hcount hagree => ⟨?_, ?_, ?_⟩⟩
  · simp [aggregate]
  · simp [aggregate]
  · rw [show (aggregate offices results).map (fun c => c.table_data.slug) =
      offices.map (fun o => o.slug) by simp [aggregate]]
    exact hnd
  · simp [aggregate, hlen]
  · rw [aggregate, List.countP_map]
    rw [List.countP_congr (fun o _ => by
      show ((results o.slug).data.isSome = true) ↔ ((results o.slug).success = true)
      rw [hagree o.slug])]
    exact hcount
  · rw [aggregate, List.countP_map]
    have key : ∀ (q : OfficeRecord → Bool) (l : List OfficeRecord),
        l.countP (fun o => !q o) + l.countP q = l.length := by
      intro q l
      induction l with
      | nil => rfl
      | cons o os ih =>
        rw [List.countP_cons, List.countP_cons]
        cases hq : q o
        · simp [hq]
          omega
        · simp [hq]
          omega
    have hc : offices.countP
          ((fun c => !c.api_data.success) ∘ fun o => (⟨o, results o.slug⟩ : CombinedRecord)) =
        offices.countP (fun o => !(results o.slug).success) :=
      List.countP_congr (fun o _ => Iff.rfl)
    have hk := key (fun o => (results o.slug).success) offices
    rw [hc]
    omega

/-- Witness for C6 at a concrete input: two offices with distinct slugs. -/
theorem claim_C6_witness :
    ([⟨"Arleta", "arleta", "a", "23", "79", "u", none, none, false⟩,
      ⟨"Pasadena", "pasadena", "b", "5", "10", "v", none, none, false⟩].map
        (fun o : OfficeRecord => o.slug)).Nodup ∧
      ((aggregate
        [⟨"Arleta", "arleta", "a", "23", "79", "u", none, none, false⟩,
         ⟨"Pasadena", "pasadena", "b", "5", "10", "v", none, none, false⟩]
        (fun s => ⟨s, false, none, 5⟩)).map (fun c => c.table_data.slug)).Nodup :=
  ⟨by decide,
    claim_C6_join_completeness.2.1
      [⟨"Arleta", "arleta", "a", "23", "79", "u", none, none, false⟩,
       ⟨"Pasadena", "pasadena", "b", "5", "10", "v", none, none, false⟩]
      (fun s => ⟨s, false, none, 5⟩) (by decide)⟩

/-- C7: The process exit status distinguishes only batch-level outcomes,
never per-slug outcomes: the exit code does not depend on the per-slug
results at all; a completed run (table parsed with at least one office,
checkpoint writes succeeded) exits 0 however many per-slug fetches failed;
and a source-table parse failure, an empty office list, or a filesystem
write failure terminates the run with a non-zero code. -/
theorem claim_C7_exit_codes :
    (∀ (parsed : ParseOutcome) (fsOutcome : FsOutcome)
        (results results2 : String → ApiResult String),
        (runBatch parsed results fsOutcome).2 = (runBatch parsed results2 fsOutcome).2) ∧
    (∀ (offices : List OfficeRecord) (results : String → ApiResult String),
        offices ≠ [] → (runBatch (.ok offices) results .ok).2 = 0) ∧
    (∀ (results : String → ApiResult String) (fsOutcome : FsOutcome),
        (runBatch .parseError results fsOutcome).2 ≠ 0) ∧
    (∀ (results : String → ApiResult String) (fsOutcome : FsOutcome),
        (runBatch (.ok []) results fsOutcome).2 ≠ 0) ∧
    (∀ (offices : List OfficeRecord) (results : String → ApiResult String),
        (runBatch (.ok offices) results .writeError).2 ≠ 0) := by
  refine ⟨fun parsed fsOutcome results results2 => ?_,
    fun offices results hne => ?_, fun results fsOutcome => ?_,
    fun results fsOutcome => ?_, fun offices results => ?_⟩
  · cases parsed with
    | parseError => rfl
    | ok offices =>
      by_cases he : offices.isEmpty
      · simp [runBatch, he]
      · cases fsOutcome <;> simp [runBatch, he]
  · have he : offices.isEmpty = false := by
      cases offices with
      | nil => exact absurd rfl hne
      | cons o os => rfl
    simp [runBatch, he]
  · cases fsOutcome <;> simp [runBatch]
  · cases fsOutcome <;> simp [runBatch]
  · by_cases he : offices.isEmpty <;> simp [runBatch, he]

/-- Witness for C7 at a concrete input: a one-office run where the fetch
failed, completing with exit code 0. -/
theorem claim_C7_witness :
    ([⟨"Arleta", "arleta", "a", "23", "79", "u", none, none, false⟩] ≠
        ([] : List OfficeRecord)) ∧
      (runBatch (.ok [⟨"Arleta", "arleta", "a", "23", "79", "u", none, none, false⟩])
        (fun s => ⟨s, false, none, 5⟩) .ok).2 = 0 :=
  ⟨by decide,
    claim_C7_exit_codes.2.1
      [⟨"Arleta", "arleta", "a", "23", "79", "u", none, none, false⟩]
      (fun s => ⟨s, false, none, 5⟩) (by decide)⟩

end DMV

namespace DMV

/-! ## Symmetric distance matrix
(`src/dmv_Symmetric_Distance_Matrix_code.ipynb`) -/

/-- One row of `dmv_offices_details.csv`: office name and zip code, the
two columns `calc_dmv_d_matrix` reads. -/
structure OfficeDetail where
  office_name : String
  zip_code : String
  deriving Repr, DecidableEq

/-- The population lookup `zip_pop_dict.get(zip, 0)`: an association list
from zip code to population, with default 0 for a missing zip code. -/
def zipPop (zip_pop_dict : List (String × Nat)) (z : String) : Nat :=
  (zip_pop_dict.lookup z).getD 0

/-- The body of the `i ≠ j` loop iteration of `calc_dmv_d_matrix`:
given the two populations and the two travel times `dtilde[i, j]` and
`dtilde[j, i]`, the branch on zero populations and the population-weighted
average. -/
def dmvEntry (popi popj : Nat) (dtij dtji : ℚ) : ℚ :=
  if popi = 0 ∧ popj = 0 then 0
  else if popi = 0 then dtji
  else if popj = 0 then dtij
  else ((popj : ℚ) * dtij + (popi : ℚ) * dtji) / ((popi : ℚ) + (popj : ℚ))

/-- Translated from `calc_dmv_d_matrix` in
`src/dmv_Symmetric_Distance_Matrix_code.ipynb`.  The travel-time matrix
`dtilde_df` is indexed by office name — the code's
`dtilde_df.loc[office_names, office_names]` alignment becomes application
of `dtilde_df` to the names at positions `i` and `j`.  The Python loop
writes only entries with `i != j` into a zero-initialized matrix, which is
the `if i = j then 0` branch here. -/
def calc_dmv_d_matrix (dtilde_df : String → String → ℚ)
    (dmv_details_df : List OfficeDetail) (zip_pop_dict : List (String × Nat))
    (i j : Fin dmv_details_df.length) : ℚ :=
  if i = j then 0
  else
    dmvEntry (zipPop zip_pop_dict (dmv_details_df.get i).zip_code)
      (zipPop zip_pop_dict (dmv_details_df.get j).zip_code)
      (dtilde_df (dmv_details_df.get i).office_name (dmv_details_df.get j).office_name)
      (dtilde_df (dmv_details_df.get j).office_name (dmv_details_df.get i).office_name)

/-- Division that reports an attempted division by zero instead of
performing it (in Python, `x / 0` raises). -/
def divChecked (a b : ℚ) : Option ℚ := if b = 0 then none else some (a / b)

/-- `dmvEntry` with its division checked. -/
def dmvEntryChecked (popi popj : Nat) (dtij dtji : ℚ) : Option ℚ :=
  if popi = 0 ∧ popj = 0 then some 0
  else if popi = 0 then some dtji
  else if popj = 0 then some dtij
  else divChecked ((popj : ℚ) * dtij + (popi : ℚ) * dtji) ((popi : ℚ) + (popj : ℚ))

/-- `calc_dmv_d_matrix` with every division checked. -/
def calc_dmv_d_matrix_checked (dtilde_df : String → String → ℚ)
    (dmv_details_df : List OfficeDetail) (zip_pop_dict : List (String × Nat))
    (i j : Fin dmv_details_df.length) : Option ℚ :=
  if i = j then some 0
  else
    dmvEntryChecked (zipPop zip_pop_dict (dmv_details_df.get i).zip_code)
      (zipPop zip_pop_dict (dmv_details_df.get j).zip_code)
      (dtilde_df (dmv_details_df.get i).office_name (dmv_details_df.get j).office_name)
      (dtilde_df (dmv_details_df.get j).office_name (dmv_details_df.get i).office_name)

/-- The loop body is symmetric under swapping the two offices. -/
theorem dmvEntry_symm (p q : Nat) (dtij dtji : ℚ) :
    dmvEntry p q dtij dtji = dmvEntry q p dtji dtij := by
  unfold dmvEntry
  by_cases hp : p = 0 <;> by_cases hq : q = 0 <;> simp [hp, hq]
  ring

/-- The checked loop body never reaches a division by zero. -/
theorem dmvEntryChecked_eq (p q : Nat) (dtij dtji : ℚ) :
    dmvEntryChecked p q dtij dtji = some (dmvEntry p q dtij dtji) := by
  unfold dmvEntryChecked dmvEntry
  by_cases hp : p = 0 <;> by_cases hq : q = 0 <;> simp [hp, hq]
  have hpq : ((p : ℚ) + (q : ℚ)) ≠ 0 := by
    have h2 : p + q ≠ 0 := by omega
    exact_mod_cast h2
  rw [divChecked, if_neg hpq]

end DMV

namespace DMV

/-- C8: The matrix returned by `calc_dmv_d_matrix` is symmetric: for every
travel-time matrix `dtilde`, office detail table, and population lookup,
and all indices `i`, `j`, the returned matrix satisfies
`d_matrix[i, j] = d_matrix[j, i]` — the population-weighted average and
the zero-population fallbacks yield the same value in both orientations,
even though `dtilde` need not be symmetric. -/
theorem claim_C8_d_matrix_symmetric (dtilde_df : String → String → ℚ)
    (dmv_details_df : List OfficeDetail) (zip_pop_dict : List (String × Nat))
    (i j : Fin dmv_details_df.length) :
    calc_dmv_d_matrix dtilde_df dmv_details_df zip_pop_dict i j =
      calc_dmv_d_matrix dtilde_df dmv_details_df zip_pop_dict j i := by
  unfold calc_dmv_d_matrix
  by_cases hij : i = j
  · rw [if_pos hij, if_pos hij.symm]
  · rw [if_neg hij, if_neg (Ne.symm hij)]
    exact dmvEntry_symm _ _ _ _

/-- C9: `calc_dmv_d_matrix` never divides by zero: the checked variant in
which division by zero is an error always returns `some` of the unchecked
value; for `i ≠ j`, when exactly one population is zero the entry is the
raw travel time weighted entirely toward the populated side
(`dtilde[j, i]` when `popi = 0`, `dtilde[i, j]` when `popj = 0`), when
both are zero the entry is 0, and a zip code missing from the population
lookup is treated as population 0. -/
theorem claim_C9_no_div_by_zero (dtilde_df : String → String → ℚ)
    (dmv_details_df : List OfficeDetail) (zip_pop_dict : List (String × Nat)) :
    (∀ i j : Fin dmv_details_df.length,
        calc_dmv_d_matrix_checked dtilde_df dmv_details_df zip_pop_dict i j =
          some (calc_dmv_d_matrix dtilde_df dmv_details_df zip_pop_dict i j)) ∧
    (∀ i j : Fin dmv_details_df.length, i ≠ j →
        zipPop zip_pop_dict (dmv_details_df.get i).zip_code = 0 →
        zipPop zip_pop_dict (dmv_details_df.get j).zip_code = 0 →
        calc_dmv_d_matrix dtilde_df dmv_details_df zip_pop_dict i j = 0) ∧
    (∀ i j : Fin dmv_details_df.length, i ≠ j →
        zipPop zip_pop_dict (dmv_details_df.get i).zip_code = 0 →
        zipPop zip_pop_dict (dmv_details_df.get j).zip_code ≠ 0 →
        calc_dmv_d_matrix dtilde_df dmv_details_df zip_pop_dict i j =
          dtilde_df (dmv_details_df.get j).office_name
            (dmv_details_df.get i).office_name) ∧
    (∀ i j : Fin dmv_details_df.length, i ≠ j →
        zipPop zip_pop_dict (dmv_details_df.get i).zip_code ≠ 0 →
        zipPop zip_pop_dict (dmv_details_df.get j).zip_code = 0 →
        calc_dmv_d_matrix dtilde_df dmv_details_df zip_pop_dict i j =
          dtilde_df (dmv_details_df.get i).office_name
            (dmv_details_df.get j).office_name) ∧
    (∀ z : String, zip_pop_dict.lookup z = none → zipPop zip_pop_dict z = 0) := by
  refine ⟨fun i j => ?_, fun i j hij hpi hpj => ?_, fun i j hij hpi hpj => ?_,
    fun i j hij hpi hpj => ?_, fun z hz => ?_⟩
  · unfold calc_dmv_d_matrix_checked calc_dmv_d_matrix
    by_cases hij : i = j
    · rw [if_pos hij, if_pos hij]
    · rw [if_neg hij, if_neg hij]
      exact dmvEntryChecked_eq _ _ _ _
  · unfold calc_dmv_d_matrix dmvEntry
    rw [if_neg hij, if_pos ⟨hpi, hpj⟩]
  · unfold calc_dmv_d_matrix dmvEntry
    rw [if_neg hij, if_neg (fun h => hpj h.2), if_pos hpi]
  · unfold calc_dmv_d_matrix dmvEntry
    rw [if_neg hij, if_neg (fun h => hpi h.1), if_neg hpi, if_pos hpj]
  · unfold zipPop
    rw [hz]
    rfl

/-- C10: Every diagonal entry of the matrix returned by
`calc_dmv_d_matrix` is zero: the matrix is initialized to zeros and the
loop assigns only entries with `i ≠ j`, so `d_matrix[i, i] = 0` regardless
of the travel-time matrix's own diagonal. -/
theorem claim_C10_diagonal_zero (dtilde_df : String → String → ℚ)
    (dmv_details_df : List OfficeDetail) (zip_pop_dict : List (String × Nat))
    (i : Fin dmv_details_df.length) :
    calc_dmv_d_matrix dtilde_df dmv_details_df zip_pop_dict i i = 0 := by
  unfold calc_dmv_d_matrix
  rw [if_pos rfl]

/-- Office detail table used by the C9 witness: Arleta's zip code is
missing from the population lookup, Pasadena's is present. -/
def wDetails : List OfficeDetail := [⟨"Arleta", "91331"⟩, ⟨"Pasadena", "91101"⟩]

/-- Population lookup for the C9 witness. -/
def wZpd : List (String × Nat) := [("91101", 50000)]

/-- Asymmetric travel-time matrix for the C9 witness. -/
def wDtilde : String → String → ℚ := fun s t =>
  if s = "Arleta" ∧ t = "Pasadena" then 10
  else if s = "Pasadena" ∧ t = "Arleta" then 20 else 0

/-- Witness for C9 at a concrete input: two offices, the first with a zip
code missing from the lookup (population 0), evaluated at `i = 0`,
`j = 1`. -/
theorem claim_C9_witness :
    (calc_dmv_d_matrix_checked wDtilde wDetails wZpd ⟨0, by decide⟩ ⟨1, by decide⟩ =
        some (calc_dmv_d_matrix wDtilde wDetails wZpd ⟨0, by decide⟩ ⟨1, by decide⟩)) ∧
      ((⟨0, by decide⟩ : Fin wDetails.length) ≠ ⟨1, by decide⟩ ∧
        zipPop wZpd (wDetails.get ⟨0, by decide⟩).zip_code = 0 ∧
        zipPop wZpd (wDetails.get ⟨1, by decide⟩).zip_code ≠ 0 ∧
        calc_dmv_d_matrix wDtilde wDetails wZpd ⟨0, by decide⟩ ⟨1, by decide⟩ =
          wDtilde (wDetails.get ⟨1, by decide⟩).office_name
            (wDetails.get ⟨0, by decide⟩).office_name) ∧
      (wZpd.lookup "90000" = none ∧ zipPop wZpd "90000" = 0) :=
  ⟨(claim_C9_no_div_by_zero wDtilde wDetails wZpd).1 ⟨0, by decide⟩ ⟨1, by decide⟩,
    ⟨by decide, by decide, by decide,
      (claim_C9_no_div_by_zero wDtilde wDetails wZpd).2.2.1 ⟨0, by decide⟩ ⟨1, by decide⟩
        (by decide) (by decide) (by decide)⟩,
    by decide,
    (claim_C9_no_div_by_zero wDtilde wDetails wZpd).2.2.2.2 "90000" (by decide)⟩

end DMV
